import Mathlib

/-
Verification development for the copilot-transcription-actions repository.

Each model below is a shallow embedding of one component of the extension,
translated from the TypeScript/JavaScript sources:
  - the scheduling intent detector (extractMeetingDetails in the ChatTab
    component), including a faithful executable model of the exact regular
    expressions it uses, with JavaScript leftmost-first matching and
    greedy backtracking semantics;
  - the proposal deduplication state (customActions with its isDuplicate
    check and the accept/reject filters);
  - the single-in-flight transcription guard of the sidepanel recorder
    (processAudioForTranscription with isProcessingAudioRef, plus the
    canTranscribe helper);
  - the offscreen recording document (handleRecording, handleStopRecording),
    driven by the MediaRecorder contract in which stop() sets the recorder
    state to inactive before the final dataavailable event is delivered;
  - the transcript aggregation / debounce component (TranscriptionTab),
    modelled at the level of React render snapshots: a timer callback
    created in an effect closes over the pendingText value of the render
    in which the effect ran, not over the later updated value;
  - the background orchestrator (initiateRecordingStart and
    initiateRecordingStop, tab/mic/both source paths), with capture
    primitives abstracted as environment outcome oracles;
  - the microphone permission probes (checkMicrophonePermission in the
    sidepanel and checkAudioPermissions in the offscreen document);
  - the zustand shared store (setActiveTab);
  - the server scheduling tool handler (scheduleAppointment), with
    JavaScript truthiness for the optional fields.
-/

namespace CTA

/-! ### Generic character and string helpers (ASCII model of the JS ones) -/

/-- The apostrophe character, built from its code point. -/
def apos : Char := Char.ofNat 39

/-- JS regex word character class: letters, digits, underscore. -/
def isWordChar (c : Char) : Bool := c.isAlpha || c.isDigit || c == '_'

/-- JS regex whitespace class, restricted to the ASCII whitespace characters. -/
def isSpaceChar (c : Char) : Bool := c == ' ' || c == '\t' || c == '\n' || c == '\r'

/-- ASCII model of String.prototype.toLowerCase applied characterwise. -/
def lowerList (s : String) : List Char := s.toList.map Char.toLower

/-- Boolean prefix test on character lists. -/
def prefixEq : List Char → List Char → Bool
  | [], _ => true
  | _ :: _, [] => false
  | a :: as, b :: bs => a == b && prefixEq as bs

/-- Boolean substring test on character lists; models String.prototype.includes. -/
def containsSubList (needle : List Char) : List Char → Bool
  | [] => prefixEq needle []
  | c :: rest => prefixEq needle (c :: rest) || containsSubList needle rest

/-- String.prototype.includes, via the list-level substring test. -/
def strIncludes (hay needle : String) : Bool := containsSubList needle.toList hay.toList

/-- Remove the first occurrence of pat from s; models s.replace(pat, e) for a
string pattern pat and the empty replacement e, as used by the aggregator. -/
def removeFirst (pat : List Char) : List Char → List Char
  | [] => []
  | c :: rest =>
    if prefixEq pat (c :: rest) then (c :: rest).drop pat.length
    else c :: removeFirst pat rest

/-- ASCII model of String.prototype.trim. -/
def trimChars (l : List Char) : List Char :=
  ((l.dropWhile isSpaceChar).reverse.dropWhile isSpaceChar).reverse

/-- String-level wrapper for removeFirst followed by trim, as the aggregator
computes newText from the cumulative transcriber output. -/
def replaceTrim (s pat : String) : String :=
  String.mk (trimChars (removeFirst pat.toList s.toList))

/-! ### Specialised matchers for the exact regexes of extractMeetingDetails

Each matcher implements one regular expression of the source with JS
semantics: the scanner tries every start position from the left, and at a
given position the alternatives and optional pieces are tried in greedy
order with backtracking, first success wins. All time/date patterns begin
with a word character, so the leading word-boundary assertion holds exactly
when the previous character is absent or is not a word character. -/

/-- Word boundary before a match that begins with a word character. -/
def boundaryBefore : Option Char → Bool
  | none => true
  | some c => !(isWordChar c)

/-- Word boundary after a match that ends with a word character. -/
def boundaryAfter : List Char → Bool
  | [] => true
  | c :: _ => !(isWordChar c)

/-- Match a literal character sequence, returning the remainder. -/
def matchLit : List Char → List Char → Option (List Char)
  | [], s => some s
  | _ :: _, [] => none
  | l :: ls, c :: cs => if c == l then matchLit ls cs else none

/-- Match a literal sequence case-insensitively (lowercase literal). -/
def matchLitCI : List Char → List Char → Option (List Char)
  | [], s => some s
  | _ :: _, [] => none
  | l :: ls, c :: cs => if c.toLower == l then matchLitCI ls cs else none

/-- Leftmost scan: try the position matcher at every position whose left
context is a word boundary, walking the string from the start. -/
def scanFor (tryAt : List Char → Option (List Char)) : Option Char → List Char → Option (List Char)
  | prev, [] => if boundaryBefore prev then tryAt [] else none
  | prev, c :: rest =>
    match (if boundaryBefore prev then tryAt (c :: rest) else none) with
    | some r => some r
    | none => scanFor tryAt (some c) rest

/-- Tail of the first time pattern after the digits and the optional colon
part: whitespace then am or pm, then a word boundary. The whitespace and
meridiem belong to capture group 1. -/
def time1AmPm (pre : List Char) (cs : List Char) : Option (List Char) :=
  let sp := cs.takeWhile isSpaceChar
  match cs.dropWhile isSpaceChar with
  | 'a' :: 'm' :: rest => if boundaryAfter rest then some (pre ++ sp ++ [ 'a', 'm']) else none
  | 'p' :: 'm' :: rest => if boundaryAfter rest then some (pre ++ sp ++ [ 'p', 'm']) else none
  | _ => none

/-- Optional colon-minutes part of the first time pattern, greedy. -/
def time1Opt (pre : List Char) (cs : List Char) : Option (List Char) :=
  (match cs with
   | ':' :: a :: b :: rest =>
     if a.isDigit && b.isDigit then time1AmPm (pre ++ [ ':', a, b]) rest else none
   | _ => none).orElse (fun _ => time1AmPm pre cs)

/-- Position matcher for the first time pattern; returns capture group 1. -/
def tryTime1 (cs : List Char) : Option (List Char) :=
  match cs with
  | d1 :: rest =>
    if d1.isDigit then
      (match rest with
       | d2 :: rest2 => if d2.isDigit then time1Opt [ d1, d2] rest2 else none
       | [] => none).orElse (fun _ => time1Opt [ d1] rest)
    else none
  | [] => none

/-- Colon-minutes tail of the second time pattern, ending at a boundary. -/
def time2Colon (pre : List Char) (cs : List Char) : Option (List Char) :=
  match cs with
  | ':' :: a :: b :: rest =>
    if a.isDigit && b.isDigit && boundaryAfter rest then some (pre ++ [ ':', a, b]) else none
  | _ => none

/-- Position matcher for the second time pattern; returns capture group 1. -/
def tryTime2 (cs : List Char) : Option (List Char) :=
  match cs with
  | d1 :: rest =>
    if d1.isDigit then
      (match rest with
       | d2 :: rest2 => if d2.isDigit then time2Colon [ d1, d2] rest2 else none
       | [] => none).orElse (fun _ => time2Colon [ d1] rest)
    else none
  | [] => none

/-- The characters of the oclock literal. -/
def oclockChars : List Char := [ 'o', apos, 'c', 'l', 'o', 'c', 'k']

/-- Tail of the third time pattern: whitespace then the oclock literal then a
boundary. Only the digits form capture group 1. -/
def time3Tail (digits : List Char) (cs : List Char) : Option (List Char) :=
  match matchLit oclockChars (cs.dropWhile isSpaceChar) with
  | some rest => if boundaryAfter rest then some digits else none
  | none => none

/-- Position matcher for the third time pattern; returns capture group 1. -/
def tryTime3 (cs : List Char) : Option (List Char) :=
  match cs with
  | d1 :: rest =>
    if d1.isDigit then
      (match rest with
       | d2 :: rest2 => if d2.isDigit then time3Tail [ d1, d2] rest2 else none
       | [] => none).orElse (fun _ => time3Tail [ d1] rest)
    else none
  | [] => none

/-- The ordered time patterns of extractMeetingDetails, first match wins. -/
def findTime (lcs : List Char) : Option (List Char) :=
  (scanFor tryTime1 none lcs).orElse (fun _ =>
    (scanFor tryTime2 none lcs).orElse (fun _ =>
      scanFor tryTime3 none lcs))

/-- Alternation of literal words bounded on the right, with fallthrough to
the later alternatives when the boundary fails; returns the matched word. -/
def tryWordAlts : List (List Char) → List Char → Option (List Char)
  | [], _ => none
  | w :: rest, cs =>
    (match matchLit w cs with
     | some r => if boundaryAfter r then some w else none
     | none => none).orElse (fun _ => tryWordAlts rest cs)

/-- The weekday names of the day pattern, in source order. -/
def dayWords : List (List Char) :=
  [ "monday".toList, "tuesday".toList, "wednesday".toList, "thursday".toList,
    "friday".toList, "saturday".toList, "sunday".toList]

/-- The month prefixes of the month-day pattern, in source order. -/
def monthWords : List (List Char) :=
  [ "jan".toList, "feb".toList, "mar".toList, "apr".toList, "may".toList, "jun".toList,
    "jul".toList, "aug".toList, "sep".toList, "oct".toList, "nov".toList, "dec".toList]

/-- Lowercase ASCII letter class of the month pattern. -/
def isLowerAlpha (c : Char) : Bool := 'a' ≤ c && c ≤ 'z'

/-- One or two digits then a word boundary, greedy, for the month pattern;
pre is the already matched text of the whole match. -/
def monthDigits (pre : List Char) (cs : List Char) : Option (List Char) :=
  match cs with
  | d1 :: r =>
    if d1.isDigit then
      (match r with
       | d2 :: r2 => if d2.isDigit && boundaryAfter r2 then some (pre ++ [ d1, d2]) else none
       | [] => none).orElse (fun _ =>
        if boundaryAfter r then some (pre ++ [ d1]) else none)
    else none
  | [] => none

/-- Position matcher for the month-day pattern; returns the whole match. -/
def tryMonth : List (List Char) → List Char → Option (List Char)
  | [], _ => none
  | m :: rest, cs =>
    (match matchLit m cs with
     | some r =>
       let letters := r.takeWhile isLowerAlpha
       (match r.dropWhile isLowerAlpha with
        | ' ' :: r3 => monthDigits (m ++ letters ++ [ ' ']) r3
        | _ => none)
     | none => none).orElse (fun _ => tryMonth rest cs)

/-- The description keywords of the about pattern, in source order. -/
def aboutWords : List (List Char) :=
  [ "about".toList, "regarding".toList, "discussing".toList, "for".toList, "on".toList]

/-- Continuation of the about pattern after the keyword: one or more
whitespace characters (greedy, with backtracking) then one or more
characters other than comma and period (capture group 1). -/
def aboutCont : List Char → Option (List Char)
  | [] => none
  | c :: rest =>
    if isSpaceChar c then
      (aboutCont rest).orElse (fun _ =>
        let g := rest.takeWhile (fun d => !(d == ',') && !(d == '.'))
        if g.isEmpty then none else some g)
    else none

/-- Position matcher for the about pattern (case-insensitive, run on the
original text); returns capture group 1. -/
def tryAbout : List (List Char) → List Char → Option (List Char)
  | [], _ => none
  | k :: rest, cs =>
    (match matchLitCI k cs with
     | some r => aboutCont r
     | none => none).orElse (fun _ => tryAbout rest cs)

/-- Uppercase the first character, as charAt(0).toUpperCase() + slice(1). -/
def capFirst : List Char → List Char
  | [] => []
  | c :: r => c.toUpper :: r

/-! ### The scheduling intent detector (extractMeetingDetails) -/

/-- The result record of extractMeetingDetails. -/
structure MeetingDetails where
  time : String
  date : String
  description : String
  source : String
deriving DecidableEq, Repr

/-- The keyword gate of extractMeetingDetails: a scheduling keyword and a
time-indicative token must both occur in the lowercased text. -/
def hasSchedulingKeywords (lcs : List Char) : Bool :=
  (containsSubList "schedule".toList lcs ||
   containsSubList "meeting".toList lcs ||
   containsSubList "appointment".toList lcs ||
   containsSubList "call".toList lcs) &&
  (containsSubList "at ".toList lcs ||
   containsSubList " for ".toList lcs ||
   containsSubList oclockChars lcs ||
   containsSubList "pm".toList lcs ||
   containsSubList "am".toList lcs)

/-- The date extraction of extractMeetingDetails: tomorrow and today by
substring, then the weekday pattern (capitalised), then the month-day
pattern overriding the weekday, defaulting to today. -/
def extractDate (lcs : List Char) : String :=
  if containsSubList "tomorrow".toList lcs then "tomorrow"
  else if containsSubList "today".toList lcs then "today"
  else
    let d1 : List Char :=
      match scanFor (tryWordAlts dayWords) none lcs with
      | some day => capFirst day
      | none => "today".toList
    match scanFor (tryMonth monthWords) none lcs with
    | some md => String.mk md
    | none => String.mk d1

/-- The description extraction of extractMeetingDetails: capture group 1 of
the about pattern on the original text, trimmed, defaulting to Meeting. -/
def extractDescription (text : String) : String :=
  match scanFor (tryAbout aboutWords) none text.toList with
  | some g => String.mk (trimChars g)
  | none => "Meeting"

/-- The scheduling intent detector extractMeetingDetails: gate on keywords,
extract the time through the ordered patterns (no time means no proposal),
then the date and the description. -/
def extractMeetingDetails (text : String) : Option MeetingDetails :=
  let lcs := lowerList text
  if !(hasSchedulingKeywords lcs) then none
  else
    match findTime lcs with
    | none => none
    | some timeChars =>
      some { time := String.mk timeChars,
             date := extractDate lcs,
             description := extractDescription text,
             source := "transcript" }

/-- The first example input of the detector spec, containing an apostrophe. -/
def exampleScheduleText : String :=
  "let" ++ String.mk [ apos] ++ "s schedule a meeting at 4pm tomorrow"

/-! ### Proposal deduplication (customActions in the ChatTab component)

The ChatTab has two transcript effects: one on fullTranscript (guarded by
the lastProcessedTranscript state) and one on latestTranscription. Each
calls extractMeetingDetails and, before adding a new custom action, tests
isDuplicate: some existing action with the same time and the same date.
The store updateTranscription sets latestTranscription and fullTranscript
in one set call, so both effects run in the same React commit and both
read the same render snapshot of customActions for their isDuplicate test,
while their setCustomActions updates are functional and both apply.
Accepting or rejecting a meeting, in its own later commit, filters out
every action with that time and date. -/

/-- The isDuplicate check of the transcript effects. -/
def dupCheck (actions : List MeetingDetails) (md : MeetingDetails) : Bool :=
  actions.any (fun a => a.time == md.time && a.date == md.date)

/-- No two actions in the list share their time and date pair. -/
def DistinctPairs (actions : List MeetingDetails) : Prop :=
  actions.Pairwise (fun a b => ¬(a.time = b.time ∧ a.date = b.date))

/-- State of the ChatTab detection pipeline: the customActions list, the
lastProcessedTranscript state of the full-transcript effect, and the
previous values of the two effect dependencies (an effect re-runs only when
its dependency changed in the commit). -/
structure ChatTabState where
  customActions : List MeetingDetails
  lastProcessed : String
  prevLatest : String
  prevFull : String
deriving DecidableEq, Repr

/-- Initial ChatTab state. -/
def chatTabInit : ChatTabState :=
  { customActions := [], lastProcessed := "", prevLatest := "", prevFull := "" }

/-- What one transcript effect contributes in a commit: the proposal it
appends, if its guards pass, its extraction finds a meeting, and the
isDuplicate test against the shared snapshot fails. -/
def effectAdd (auto : Bool) (snapshot : List MeetingDetails) (fires : Bool)
    (text : String) : Option MeetingDetails :=
  if fires then
    match extractMeetingDetails text with
    | some md => if !(dupCheck snapshot md) && auto then some md else none
    | none => none
  else none

/-- One store update commit: both transcript effects run against the same
render snapshot of customActions (the full-transcript effect first, then
the latest-transcription effect), and their functional setCustomActions
updates both apply. The Nat counts the proposals emitted (custom actions
added, each with a scheduled chat message). -/
def chatCommit (auto : Bool) (st : ChatTabState) (latest full : String) :
    ChatTabState × Nat :=
  let snapshot := st.customActions
  let effA := !(full = st.prevFull) && !(full = "") && !(full = st.lastProcessed)
  let addA := effectAdd auto snapshot effA full
  let effB := !(latest = st.prevLatest) && !(latest = "")
  let addB := effectAdd auto snapshot effB latest
  ({ customActions := snapshot ++ addA.toList ++ addB.toList,
     lastProcessed := if effA then full else st.lastProcessed,
     prevLatest := latest,
     prevFull := full },
   addA.toList.length + addB.toList.length)

/-- Events of the ChatTab pipeline: a transcription store update (one
commit running both effects) and the accept/reject handlers. -/
inductive ChatTabEvent where
  | update (latest full : String)
  | accept (time date : String)
  | reject (time date : String)

/-- One ChatTab step; the Nat counts the proposals emitted. -/
def chatTabStep (auto : Bool) (st : ChatTabState) : ChatTabEvent → ChatTabState × Nat
  | .update latest full => chatCommit auto st latest full
  | .accept t d =>
    ({ st with customActions :=
        st.customActions.filter (fun a => !(a.time == t && a.date == d)) }, 0)
  | .reject t d =>
    ({ st with customActions :=
        st.customActions.filter (fun a => !(a.time == t && a.date == d)) }, 0)

/-- The proposal produced by the detector for the call-at-3:30 sentence. -/
def callProposal : MeetingDetails :=
  { time := "3:30", date := "today", description := "Meeting", source := "transcript" }

/-- The ChatTab state after one store update in which both the latest
segment and the full transcript read the call-at-3:30 sentence. -/
def dupFirstCommit : ChatTabState × Nat :=
  chatTabStep true chatTabInit (ChatTabEvent.update "call at 3:30" "call at 3:30")

/-- The state after a second store update for the same meeting: a new
segment mentioning the same time arrives and the full transcript grows. -/
def dupSecondCommit : ChatTabState × Nat :=
  chatTabStep true dupFirstCommit.1
    (ChatTabEvent.update "so call at 3:30" "call at 3:30 so call at 3:30")

/-! ### Single in-flight transcription job (RealTimeAudioTranscriber)

processAudioForTranscription returns immediately when isProcessingAudioRef
is set or recording has ended; otherwise it sets the flag, runs one
transcription job, clears the collected buffer after a successful job, and
clears the flag in the finally block. The collection interval only calls it
when the buffer is non-empty, the flag is clear, and at least one second of
samples (SAMPLING_RATE) has accumulated. The inFlight field is a ghost
counter of jobs currently running inside the engine. -/

/-- Samples per second used by the recorder component. -/
def SAMPLING_RATE : Nat := 16000

/-- State of the recorder transcription pipeline. -/
structure EngState where
  busy : Bool
  isRecording : Bool
  buffered : Nat
  inFlight : Nat
deriving DecidableEq, Repr

/-- Events of the pipeline during a recording session: sample collection by
the script processor, the two-second interval tick (the only place a chunk
is submitted), and completion of the in-flight job (successful or failed). -/
inductive EngEvent where
  | collect (n : Nat)
  | tick
  | completeOk
  | completeErr

/-- One step of the pipeline, following the guards of the source: the
interval only submits when the buffer is non-empty, the busy flag is clear
and at least one second of samples accumulated; processAudioForTranscription
re-checks the flag and the recording state, sets the flag, clears the
buffer after a successful job, and clears the flag in the finally block. -/
def engStep (s : EngState) : EngEvent → EngState
  | .collect n => if s.isRecording then { s with buffered := s.buffered + n } else s
  | .tick =>
    if s.buffered > 0 && !s.busy && SAMPLING_RATE ≤ s.buffered && s.isRecording then
      { s with busy := true, inFlight := s.inFlight + 1 }
    else s
  | .completeOk =>
    if s.busy then { s with busy := false, inFlight := s.inFlight - 1, buffered := 0 } else s
  | .completeErr =>
    if s.busy then { s with busy := false, inFlight := s.inFlight - 1 } else s

/-- Pipeline state at the start of a recording session, after startRecording
reset the buffer and the flag. -/
def engInit : EngState := { busy := false, isRecording := true, buffered := 0, inFlight := 0 }

/-- Run a sequence of pipeline events from the initial state. -/
def runEng (es : List EngEvent) : EngState := es.foldl engStep engInit

/-- The canTranscribe helper of the direct-capture recorder: refuses while
the model is loading, while the transcriber is busy, and while model files
are downloading. -/
structure TranscriberFlags where
  isModelLoading : Bool
  isBusy : Bool
  progressCount : Nat

/-- canTranscribe from the direct-capture recorder component. -/
def canTranscribe (t : TranscriberFlags) : Bool :=
  if t.isModelLoading then false
  else if t.isBusy then false
  else if t.progressCount > 0 then false
  else true

/-! ### Offscreen recording document (handleRecording / handleStopRecording)

The MediaRecorder is started with a 3000 ms timeslice; dataavailable fires
with the gathered samples at each timeslice boundary while the recorder is
in the recording state. When stop() is called the MediaRecorder contract
sets the state to inactive first and then delivers one final dataavailable
event carrying the remaining partial window, followed by the stop event.
The ondataavailable handler of the source only keeps and forwards a chunk
when the recorder state is still recording. Blobs are modelled as lists of
samples. -/

/-- Observable state of the offscreen document. -/
structure OffState where
  audioChunks : List (List Nat)
  sentAudioData : List (List Nat)
  recordings : List (List Nat)
deriving DecidableEq, Repr

/-- Initial offscreen state after handleRecording acquires the stream. -/
def offInit : OffState := { audioChunks := [], sentAudioData := [], recordings := [] }

/-- The ondataavailable handler: keep and forward the chunk only when it is
non-empty and the recorder state is still recording. -/
def onDataAvailable (st : OffState) (data : List Nat) (stateIsRecording : Bool) : OffState :=
  if data.length > 0 && stateIsRecording then
    { st with audioChunks := st.audioChunks ++ [data],
              sentAudioData := st.sentAudioData ++ [data] }
  else st

/-- The handleStopRecording handler: assemble one blob from the kept chunks,
store it as the finished recording, send it as the final audio data, and
clear the chunk list. -/
def handleStopRecording (st : OffState) : OffState :=
  { audioChunks := [],
    sentAudioData := st.sentAudioData ++ [st.audioChunks.flatten],
    recordings := st.recordings ++ [st.audioChunks.flatten] }

/-- A full recording session: the full 3-second windows are delivered while
the recorder state is recording; stop() sets the state to inactive, then
the final dataavailable event delivers the leftover partial window with the
state already inactive, then the stop handler runs. -/
def runOffSession (windows : List (List Nat)) (leftover : List Nat) : OffState :=
  let afterWindows := windows.foldl (fun st w => onDataAvailable st w true) offInit
  let afterFinal := onDataAvailable afterWindows leftover false
  handleStopRecording afterFinal

/-! ### Transcript aggregation and debounce (TranscriptionTab)

The component keeps pendingText in React state, lastTextRef and the timer
in refs. On each change of the cumulative transcriber output it computes
newText by deleting the previous output from the new one and trimming; when
newText is non-empty it appends it to pendingText (functional update),
clears any pending timer and arms a fresh 1000 ms timer. The timer callback
is the emitBufferedText closure of the render in which the effect ran, so
the pendingText it reads is the value from before that update (the React
state of that render), not the current one. When the captured text is
non-empty the callback appends one segment to the transcript and resets the
real pendingText to empty; either way the timer ref is cleared. -/

/-- Debounce window of the aggregator in milliseconds. -/
def BUFFER_THRESHOLD : Nat := 1000

/-- State of the aggregator. The timer stores its deadline and the
pendingText value captured by the closure of the arming render. -/
structure AggState where
  lastText : String
  pending : String
  timer : Option (Nat × String)
  fullTranscript : String
  segments : List (Nat × String)
deriving DecidableEq, Repr

/-- Initial aggregator state. -/
def aggInit : AggState :=
  { lastText := "", pending := "", timer := none, fullTranscript := "", segments := [] }

/-- pendingText joining: previous text, a space, and the new text, or just
the new text when the previous buffer is empty. -/
def joinPending (prev newText : String) : String :=
  if prev = "" then newText else prev ++ " " ++ newText

/-- Whether the buffered text already ends in sentence punctuation. -/
def endsWithPunct (s : String) : Bool :=
  match s.toList.getLast? with
  | some c => c == '.' || c == '!' || c == '?'
  | none => false

/-- The effect body for one change of the cumulative transcriber output at
time t: compute newText, and when it is non-empty update pendingText and
arm the timer with the closure snapshot of the current render. -/
def fragmentArrive (st : AggState) (t : Nat) (output : String) : AggState :=
  if output ≠ "" && output ≠ st.lastText then
    let newText := replaceTrim output st.lastText
    let st1 :=
      if newText ≠ "" then
        { st with pending := joinPending st.pending newText,
                  timer := some (t + BUFFER_THRESHOLD, st.pending) }
      else st
    { st1 with lastText := output }
  else st

/-- The timer callback: emitBufferedText of the arming render, followed by
clearing the timer ref. The captured pendingText decides everything; when
it is non-empty one segment is appended (with a period added when needed)
and the real pendingText is reset to empty. -/
def timerFire (st : AggState) : AggState :=
  match st.timer with
  | none => st
  | some (d, captured) =>
    if captured ≠ "" then
      let textToEmit := if endsWithPunct captured then captured else captured ++ "."
      { st with
          fullTranscript :=
            if st.fullTranscript = "" then textToEmit
            else st.fullTranscript ++ "\n" ++ textToEmit,
          segments := st.segments ++ [(d, textToEmit)],
          pending := "",
          timer := none }
    else { st with timer := none }

/-- Whether the armed timer elapses strictly before time t. -/
def timerDueBefore (st : AggState) (t : Nat) : Bool :=
  match st.timer with
  | some (d, _) => d ≤ t
  | none => false

/-- Run the aggregator over timestamped cumulative outputs (times
non-decreasing); a due timer fires before the next output is processed, and
any armed timer fires after the last output (silence at the end). -/
def runAgg (st : AggState) : List (Nat × String) → AggState
  | [] => timerFire st
  | (t, output) :: rest =>
    let st1 := if timerDueBefore st t then timerFire st else st
    runAgg (fragmentArrive st1 t output) rest

/-! ### Background orchestrator (initiateRecordingStart / initiateRecordingStop)

The source-mix-aware variant of the background script. Capture primitives
(tab capture via tabCapture, microphone via the offscreen document) are
abstracted as outcome oracles in an environment record: the model only
tracks what the orchestrator does with their results. The broadcast
RECORDING_STATUS messages form the trace. For source both, the tab capture
result decides success; the offscreen microphone part runs after the
started broadcast and its failure is caught and logged, so the promise
still resolves and no further message is sent. -/

/-- Outcomes of the capture primitives for one request. -/
structure BgEnv where
  tabStart : Except String Unit
  offStart : Except String Unit
  tabStop : Except String Unit
  offStop : Except String Unit

/-- Orchestrator state: the isRecording flag, the recordingSource variable,
and the lastRecordingUrl pointer. -/
structure BgState where
  isRecording : Bool
  recordingSource : String
  lastRecordingUrl : Option String
deriving DecidableEq, Repr

/-- The RECORDING_STATUS broadcasts of the orchestrator. -/
inductive BgMsg where
  | statusStarted (source : String)
  | statusStopped (source : String) (recordingUrl : Option String)
deriving DecidableEq, Repr

/-- initiateRecordingStop: nothing to do when not recording; otherwise stop
the tab capture (tab and both sources; for both the offscreen stop error is
only logged) or the offscreen recording (mic source), broadcast the stopped
status, and clear isRecording. A failing stop primitive rejects the promise
and leaves isRecording set. -/
def recordingStop (env : BgEnv) (st : BgState) :
    List BgMsg × Except String Bool × BgState :=
  if st.isRecording = false then ([], Except.ok true, st)
  else if st.recordingSource = "tab" || st.recordingSource = "both" then
    match env.tabStop with
    | Except.error e => ([], Except.error e, st)
    | Except.ok _ =>
      ([BgMsg.statusStopped st.recordingSource st.lastRecordingUrl], Except.ok true,
        { st with isRecording := false })
  else
    match env.offStop with
    | Except.error e => ([], Except.error e, st)
    | Except.ok _ =>
      ([BgMsg.statusStopped st.recordingSource st.lastRecordingUrl], Except.ok true,
        { st with isRecording := false })

/-- The start path taken once no prior session is running: for tab and both
sources, start the tab capture, set isRecording, broadcast started with the
current source, and for both attempt the offscreen microphone part whose
failure is caught and logged; for mic, start the offscreen recording. -/
def startCore (env : BgEnv) (st : BgState) :
    List BgMsg × Except String Bool × BgState :=
  if st.recordingSource = "tab" || st.recordingSource = "both" then
    match env.tabStart with
    | Except.error e => ([], Except.error e, st)
    | Except.ok _ =>
      ([BgMsg.statusStarted st.recordingSource], Except.ok true,
        { st with isRecording := true })
  else
    match env.offStart with
    | Except.error e => ([], Except.error e, st)
    | Except.ok _ =>
      ([BgMsg.statusStarted st.recordingSource], Except.ok true,
        { st with isRecording := true })

/-- initiateRecordingStart: when a session is recording, await the full stop
sequence first (a stop rejection propagates and aborts the start), then run
the start path. -/
def recordingStart (env : BgEnv) (st : BgState) :
    List BgMsg × Except String Bool × BgState :=
  if st.isRecording then
    match recordingStop env st with
    | (tr, Except.error e, st1) => (tr, Except.error e, st1)
    | (tr, Except.ok _, st1) =>
      match startCore env st1 with
      | (tr2, r2, st2) => (tr ++ tr2, r2, st2)
  else startCore env st

/-- UI requests handled by the orchestrator: TOGGLE_RECORDING START sets the
recording source before starting; STOP stops. -/
inductive BgReq where
  | start (source : String) (env : BgEnv)
  | stop (env : BgEnv)

/-- Handle one request, keeping the broadcast trace. -/
def handleReq (st : BgState) : BgReq → List BgMsg × BgState
  | .start src env =>
    match recordingStart env { st with recordingSource := src } with
    | (tr, _, st2) => (tr, st2)
  | .stop env =>
    match recordingStop env st with
    | (tr, _, st2) => (tr, st2)

/-- Run a request sequence, concatenating the broadcast traces. -/
def runBg (st : BgState) : List BgReq → List BgMsg × BgState
  | [] => ([], st)
  | r :: rs =>
    match handleReq st r with
    | (tr, st1) =>
      match runBg st1 rs with
      | (tr2, st2) => (tr ++ tr2, st2)

/-- A broadcast trace alternates correctly between sessions: read from the
left with b the recording flag before the trace, a started broadcast occurs
only while no session is recording and a stopped broadcast only while one
is; b2 is the flag after the trace. -/
inductive StatusAlt : Bool → List BgMsg → Bool → Prop
  | nil (b : Bool) : StatusAlt b [] b
  | started (s : String) (tr : List BgMsg) (b2 : Bool) :
      StatusAlt true tr b2 → StatusAlt false (BgMsg.statusStarted s :: tr) b2
  | stopped (s : String) (u : Option String) (tr : List BgMsg) (b2 : Bool) :
      StatusAlt false tr b2 → StatusAlt true (BgMsg.statusStopped s u :: tr) b2

/-- Environment for the corrected start(both) scenario: tab capture
succeeds, the offscreen microphone part fails. -/
def micFailEnv : BgEnv :=
  { tabStart := Except.ok (), offStart := Except.error "Microphone capture failed",
    tabStop := Except.ok (), offStop := Except.ok () }

/-- Idle orchestrator state with source both. -/
def idleBothState : BgState :=
  { isRecording := false, recordingSource := "both", lastRecordingUrl := none }

/-- Environment in which every capture primitive succeeds. -/
def okEnv : BgEnv :=
  { tabStart := Except.ok (), offStart := Except.ok (),
    tabStop := Except.ok (), offStop := Except.ok () }

/-- Idle orchestrator state with source mic. -/
def idleMicState : BgState :=
  { isRecording := false, recordingSource := "mic", lastRecordingUrl := none }

/-- Recording orchestrator state with source mic. -/
def recMicState : BgState :=
  { isRecording := true, recordingSource := "mic", lastRecordingUrl := none }

/-! ### Microphone permission probes

checkMicrophonePermission (sidepanel) queries the Permissions API; when the
query reports granted it additionally calls getUserMedia, stops every track
of the obtained stream, and only then returns true; any other query answer,
a query failure, or a getUserMedia failure returns false.
checkAudioPermissions (offscreen) rejects early on a denied query, otherwise
always attempts getUserMedia (also when the query answered prompt), releases
the tracks and resolves success, or rejects with a classified error state on
a getUserMedia failure. -/

/-- Answers of the Permissions API query, with failure for a thrown error. -/
inductive PermQuery where
  | granted
  | denied
  | prompt
  | failure
deriving DecidableEq, Repr

/-- Environment of one permission probe: the query answer, whether the
getUserMedia attempt succeeds, and the classified error state the offscreen
probe reports when getUserMedia fails. -/
structure MicEnv where
  query : PermQuery
  gum : Bool
  gumDenialKind : String

/-- Result of the sidepanel probe, with ghost fields recording whether a
capture was actually attempted and whether the tracks were released. -/
structure MicProbe where
  result : Bool
  attemptedCapture : Bool
  releasedTracks : Bool
deriving DecidableEq, Repr

/-- checkMicrophonePermission from the sidepanel permission utilities. -/
def checkMicrophonePermission (env : MicEnv) : MicProbe :=
  match env.query with
  | .failure => { result := false, attemptedCapture := false, releasedTracks := false }
  | .granted =>
    if env.gum then { result := true, attemptedCapture := true, releasedTracks := true }
    else { result := false, attemptedCapture := true, releasedTracks := false }
  | _ => { result := false, attemptedCapture := false, releasedTracks := false }

/-- Reply of the offscreen permission check. -/
inductive PermCheckReply where
  | success
  | failed (data : String)
deriving DecidableEq, Repr

/-- checkAudioPermissions from the offscreen document; the Bool records
whether getUserMedia was attempted. -/
def checkAudioPermissions (env : MicEnv) : PermCheckReply × Bool :=
  match env.query with
  | .failure => (PermCheckReply.failed "error", false)
  | .denied => (PermCheckReply.failed "denied", false)
  | _ =>
    if env.gum then (PermCheckReply.success, true)
    else (PermCheckReply.failed env.gumDenialKind, true)

/-- Probe environment with a granted query and a successful capture. -/
def grantedOkEnv : MicEnv :=
  { query := PermQuery.granted, gum := true, gumDenialKind := "denied" }

/-! ### Shared store (zustand) -/

/-- The two sidepanel tabs. -/
inductive Tab where
  | chat
  | transcription
deriving DecidableEq, Repr

/-- A pending tool proposal in the store. -/
structure PendingTool where
  toolName : String
  parameters : List (String × String)
deriving DecidableEq, Repr

/-- One recorded action result in the store. -/
structure ActionEntry where
  action : String
  result : String
  timestamp : String
deriving DecidableEq, Repr

/-- The store state of the sidepanel (the variant with the scheduling
proposal flag). -/
structure AppStoreState where
  latestTranscription : String
  fullTranscript : String
  pendingTool : Option PendingTool
  actionResults : List ActionEntry
  activeTab : Tab
  hasNewTranscription : Bool
  hasNewAction : Bool
  hasSchedulingProposal : Bool
deriving DecidableEq, Repr

/-- setActiveTab: record the tab and clear the notification flags belonging
to the tab now being viewed, leaving the rest of the state alone. -/
def setActiveTab (s : AppStoreState) (tab : Tab) : AppStoreState :=
  { s with
      activeTab := tab,
      hasNewTranscription := if tab = Tab.transcription then false else s.hasNewTranscription,
      hasNewAction := if tab = Tab.chat then false else s.hasNewAction,
      hasSchedulingProposal := if tab = Tab.chat then false else s.hasSchedulingProposal }

/-! ### Server scheduling tool (scheduleAppointment) -/

/-- Parameters of the scheduleAppointment tool; time is required, date and
description are optional strings. -/
structure AppointmentParams where
  time : String
  date : Option String
  description : Option String

/-- The appointmentDetails record of the response. -/
structure AppointmentDetails where
  time : String
  date : String
  description : String
deriving DecidableEq, Repr

/-- The response of the scheduleAppointment handler. -/
structure AppointmentResponse where
  success : Bool
  message : String
  appointmentDetails : AppointmentDetails
deriving DecidableEq, Repr

/-- JavaScript truthiness of an optional string: present and non-empty. -/
def jsTruthy : Option String → Bool
  | some s => s ≠ ""
  | none => false

/-- JavaScript x or-else d on an optional string: d when absent or empty. -/
def jsOrElse (o : Option String) (d : String) : String :=
  match o with
  | some s => if s = "" then d else s
  | none => d

/-- The scheduleAppointment handler: always resolves with success, a
message built from the time and (when truthy) the date, and details whose
optional fields fall back through JavaScript truthiness. -/
def scheduleAppointment (p : AppointmentParams) : AppointmentResponse :=
  { success := true,
    message := "Appointment scheduled for " ++ p.time ++
      (if jsTruthy p.date then " on " ++ jsOrElse p.date "" else ""),
    appointmentDetails :=
      { time := p.time,
        date := jsOrElse p.date "today",
        description := jsOrElse p.description "No description provided" } }

/-- Parameters with a provided-but-empty date and description. -/
def emptyOptionalParams : AppointmentParams :=
  { time := "4pm", date := some "", description := some "" }

/-- Appointment parameters with a non-empty date and no description. -/
def tomorrowParams : AppointmentParams :=
  { time := "4pm", date := some "tomorrow", description := none }

/-! ## Helper lemmas -/

/-- Concatenating strings concatenates their character lists. -/
theorem strToList_append (a b : String) : (a ++ b).toList = a.toList ++ b.toList := by
  cases a
  cases b
  rfl

/-- A list is a Boolean prefix of itself followed by anything. -/
theorem prefixEq_self_append (n b : List Char) : prefixEq n (n ++ b) = true := by
  induction n with
  | nil => rfl
  | cons c cs ih => simp [prefixEq, ih]

/-- The substring test finds an occurrence placed after any left context. -/
theorem containsSubList_mid (n pre b : List Char) :
    containsSubList n (pre ++ n ++ b) = true := by
  induction pre with
  | nil =>
    cases hn : n ++ b with
    | nil => simpa [containsSubList, hn] using prefixEq_self_append n b
    | cons c cs => simpa [containsSubList, hn] using Or.inl (hn ▸ prefixEq_self_append n b)
  | cons c cs ih =>
    have h2 : containsSubList n (cs ++ (n ++ b)) = true := by
      simpa [List.append_assoc] using ih
    simp [containsSubList, h2]

/-- Invariant of the transcription pipeline: the ghost in-flight counter is
one exactly while the busy flag is set. -/
theorem engStep_inflight (s : EngState) (e : EngEvent)
    (h : s.inFlight = cond s.busy 1 0) :
    (engStep s e).inFlight = cond (engStep s e).busy 1 0 := by
  cases e <;> simp only [engStep] <;> split <;> simp_all

/-- The in-flight invariant holds along any fold of pipeline events. -/
theorem foldl_engStep_inflight (es : List EngEvent) :
    ∀ s : EngState, s.inFlight = cond s.busy 1 0 →
      (es.foldl engStep s).inFlight = cond (es.foldl engStep s).busy 1 0 := by
  induction es with
  | nil => intro s h; simpa using h
  | cons e es ih => intro s h; exact ih _ (engStep_inflight s e h)

/-- Trace alternation composes over concatenation. -/
theorem statusAlt_append {b1 b2 b3 : Bool} {t1 t2 : List BgMsg}
    (h1 : StatusAlt b1 t1 b2) (h2 : StatusAlt b2 t2 b3) :
    StatusAlt b1 (t1 ++ t2) b3 := by
  induction h1 with
  | nil b => simpa using h2
  | started s tr bb h ih => exact StatusAlt.started s _ _ (ih h2)
  | stopped s u tr bb h ih => exact StatusAlt.stopped s u _ _ (ih h2)

/-- The stop sequence broadcasts an alternating trace from the current flag
to the final flag. -/
theorem recordingStop_alt (env : BgEnv) (st : BgState) :
    StatusAlt st.isRecording (recordingStop env st).1
      ((recordingStop env st).2.2).isRecording := by
  unfold recordingStop
  split
  · next h => simp only [h]; exact StatusAlt.nil false
  · next h =>
    have hrec : st.isRecording = true := by
      cases hb : st.isRecording with
      | false => exact absurd hb h
      | true => rfl
    split
    · cases env.tabStop with
      | error e => simpa [hrec] using StatusAlt.nil true
      | ok u => simpa [hrec] using StatusAlt.stopped _ _ _ _ (StatusAlt.nil false)
    · cases env.offStop with
      | error e => simpa [hrec] using StatusAlt.nil true
      | ok u => simpa [hrec] using StatusAlt.stopped _ _ _ _ (StatusAlt.nil false)

/-- A successfully resolved stop always leaves the recording flag cleared. -/
theorem recordingStop_ok_cleared (env : BgEnv) (st : BgState) (b : Bool)
    (hb : (recordingStop env st).2.1 = Except.ok b) :
    ((recordingStop env st).2.2).isRecording = false := by
  unfold recordingStop at hb ⊢
  by_cases h1 : st.isRecording = false
  · simp [h1]
  · by_cases h2 : st.recordingSource = "tab" ∨ st.recordingSource = "both"
    · cases henv : env.tabStop with
      | error e => rw [henv] at hb; simp [h1, h2] at hb
      | ok u => simp [h1, h2, henv]
    · cases henv : env.offStop with
      | error e => rw [henv] at hb; simp [h1, h2] at hb
      | ok u => simp [h1, h2, henv]

/-- The start path from an idle orchestrator broadcasts an alternating
trace. -/
theorem startCore_alt (env : BgEnv) (st : BgState) (h : st.isRecording = false) :
    StatusAlt st.isRecording (startCore env st).1
      ((startCore env st).2.2).isRecording := by
  unfold startCore
  split
  · cases env.tabStart with
    | error e => simpa [h] using StatusAlt.nil false
    | ok u => simpa [h] using StatusAlt.started _ _ _ (StatusAlt.nil true)
  · cases env.offStart with
    | error e => simpa [h] using StatusAlt.nil false
    | ok u => simpa [h] using StatusAlt.started _ _ _ (StatusAlt.nil true)

/-- A full start request broadcasts an alternating trace. -/
theorem recordingStart_alt (env : BgEnv) (st : BgState) :
    StatusAlt st.isRecording (recordingStart env st).1
      ((recordingStart env st).2.2).isRecording := by
  unfold recordingStart
  split
  · next h =>
    rcases hrs : recordingStop env st with ⟨tr, r, st1⟩
    cases r with
    | error e =>
      have := recordingStop_alt env st
      rw [hrs] at this
      simpa [hrs] using this
    | ok b =>
      have h1 := recordingStop_alt env st
      rw [hrs] at h1
      have h2 : st1.isRecording = false := by
        have := recordingStop_ok_cleared env st b (by rw [hrs])
        rwa [hrs] at this
      have h3 := startCore_alt env st1 h2
      rcases hsc : startCore env st1 with ⟨tr2, r2, st2⟩
      rw [hsc] at h3
      simp only [hrs, hsc]
      exact statusAlt_append h1 h3
  · next h =>
    have hrec : st.isRecording = false := by
      cases hb : st.isRecording with
      | false => rfl
      | true => exact absurd hb h
    exact startCore_alt env st hrec

/-- Each handled request broadcasts an alternating trace. -/
theorem handleReq_alt (st : BgState) (r : BgReq) :
    StatusAlt st.isRecording (handleReq st r).1
      ((handleReq st r).2).isRecording := by
  cases r with
  | start src env =>
    simp only [handleReq]
    rcases hrs : recordingStart env { st with recordingSource := src } with ⟨tr, rr, st2⟩
    have := recordingStart_alt env { st with recordingSource := src }
    rw [hrs] at this
    simpa using this
  | stop env =>
    simp only [handleReq]
    rcases hrs : recordingStop env st with ⟨tr, rr, st2⟩
    have := recordingStop_alt env st
    rw [hrs] at this
    simpa using this

/-- A whole request run broadcasts an alternating trace. -/
theorem runBg_alt (reqs : List BgReq) :
    ∀ st : BgState,
      StatusAlt st.isRecording (runBg st reqs).1 ((runBg st reqs).2).isRecording := by
  induction reqs with
  | nil => intro st; exact StatusAlt.nil _
  | cons r rs ih =>
    intro st
    simp only [runBg]
    rcases hr : handleReq st r with ⟨tr, st1⟩
    rcases hrun : runBg st1 rs with ⟨tr2, st2⟩
    have h1 := handleReq_alt st r
    rw [hr] at h1
    have h2 := ih st1
    rw [hrun] at h2
    exact statusAlt_append h1 h2

/-! ## Claim theorems -/

/-- Claim C1: the scheduling intent detector satisfies the spec examples:
the schedule-a-meeting sentence yields time 4pm with date tomorrow, the
sentence with no time yields no proposal, and the call-at-3:30 sentence
yields time 3:30 with the date defaulting to today. -/
theorem extractMeetingDetails_spec_examples :
    extractMeetingDetails exampleScheduleText =
      some { time := "4pm", date := "tomorrow", description := "Meeting",
             source := "transcript" } ∧
    extractMeetingDetails "we need to meet" = none ∧
    extractMeetingDetails "call at 3:30" =
      some { time := "3:30", date := "today", description := "Meeting",
             source := "transcript" } := by
  refine ⟨?_, ?_, ?_⟩ <;> decide

/-- Claim C2: for every interleaving of pipeline events at most one
transcription job is in flight; a tick while the busy flag is set changes
nothing (the submission is dropped and the buffer is kept for the next
flush); a tick while free with a full buffer during recording starts
exactly one job; and the canTranscribe helper refuses while the engine is
busy. -/
theorem transcription_single_inflight :
    (∀ es : List EngEvent, (runEng es).inFlight ≤ 1) ∧
    (∀ s : EngState, s.busy = true → engStep s EngEvent.tick = s) ∧
    (∀ s : EngState, s.busy = false → s.isRecording = true →
       SAMPLING_RATE ≤ s.buffered →
       engStep s EngEvent.tick = { s with busy := true, inFlight := s.inFlight + 1 }) ∧
    (∀ t : TranscriberFlags, t.isBusy = true → canTranscribe t = false) := by
  refine ⟨?_, ?_, ?_, ?_⟩
  · intro es
    have h := foldl_engStep_inflight es engInit rfl
    unfold runEng
    rw [h]
    cases (es.foldl engStep engInit).busy <;> simp
  · intro s h
    simp [engStep, h]
  · intro s h1 h2 h3
    have h4 : (16000 : Nat) ≤ s.buffered := h3
    have hpos : 0 < s.buffered := lt_of_lt_of_le (by norm_num) h4
    simp [engStep, h1, h2, h3, hpos]
  · intro t h
    simp [canTranscribe, h]

/-- Witness for claim C2 at concrete states and an event interleaving. -/
theorem transcription_single_inflight_witness :
    (runEng [EngEvent.collect 20000, EngEvent.tick, EngEvent.collect 20000,
             EngEvent.tick, EngEvent.completeOk]).inFlight ≤ 1 ∧
    engStep { busy := true, isRecording := true, buffered := 42, inFlight := 1 }
        EngEvent.tick =
      { busy := true, isRecording := true, buffered := 42, inFlight := 1 } ∧
    engStep { busy := false, isRecording := true, buffered := 20000, inFlight := 0 }
        EngEvent.tick =
      { busy := true, isRecording := true, buffered := 20000, inFlight := 1 } ∧
    canTranscribe { isModelLoading := false, isBusy := true, progressCount := 0 } = false :=
  ⟨transcription_single_inflight.1 _,
   transcription_single_inflight.2.1 _ rfl,
   transcription_single_inflight.2.2.1 _ rfl rfl (by decide),
   transcription_single_inflight.2.2.2 _ rfl⟩

/-- Claim C3 evaluation: a session with one full window and a non-empty
leftover partial window. The final dataavailable event is delivered with
the recorder already inactive, so the guard of ondataavailable discards the
leftover: the stored recording and every forwarded audio message contain
only the full window, and the samples of the leftover appear nowhere. -/
theorem offscreen_final_partial_dropped :
    runOffSession [[1, 2, 3]] [4, 5] =
      { audioChunks := [],
        sentAudioData := [[1, 2, 3], [1, 2, 3]],
        recordings := [[1, 2, 3]] } ∧
    ((runOffSession [[1, 2, 3]] [4, 5]).recordings.flatten.contains 4 = false) ∧
    ((runOffSession [[1, 2, 3]] [4, 5]).sentAudioData.flatten.contains 4 = false) := by
  refine ⟨?_, ?_, ?_⟩ <;> decide

/-- Claim C4 evaluation: a single fragment followed by silence is never
finalized (the timer callback reads the render snapshot of the buffer,
which is still empty), and the three-fragment burst at 0, 300 and 600 ms is
finalized as exactly one segment at 1600 ms whose text is the snapshot
taken before the last fragment, so the latest fragment is missing. -/
theorem aggregator_debounce_bug :
    runAgg aggInit [(0, "hello")] =
      { lastText := "hello", pending := "hello", timer := none,
        fullTranscript := "", segments := [] } ∧
    runAgg aggInit [(0, "alpha"), (300, "alpha beta"), (600, "alpha beta gamma")] =
      { lastText := "alpha beta gamma", pending := "", timer := none,
        fullTranscript := "alpha beta.", segments := [(1600, "alpha beta.")] } := by
  refine ⟨?_, ?_⟩ <;> decide

/-- Claim C5 evaluation: one transcription store update whose latest
segment and full transcript both read the call-at-3:30 sentence runs both
transcript effects in the same commit against the same empty snapshot of
customActions, so both isDuplicate tests pass and two proposals with the
identical time and date pair are appended, with two chat messages emitted;
only in later commits does the isDuplicate check see the pending pair and
suppress further detections of the same meeting. -/
theorem scheduling_proposal_duplicated :
    dupFirstCommit.1.customActions = [callProposal, callProposal] ∧
    dupFirstCommit.2 = 2 ∧
    ¬ DistinctPairs dupFirstCommit.1.customActions ∧
    dupSecondCommit.1.customActions = [callProposal, callProposal] ∧
    dupSecondCommit.2 = 0 := by
  refine ⟨?_, ?_, ?_, ?_, ?_⟩
  · decide
  · decide
  · have he : dupFirstCommit.1.customActions = [callProposal, callProposal] := by decide
    rw [DistinctPairs, he]
    intro h
    rcases List.pairwise_cons.mp h with ⟨h1, _⟩
    exact h1 callProposal (by simp) ⟨rfl, rfl⟩
  · decide
  · decide

/-- Claim C6: starting while a session is recording first runs the full
stop sequence: on a resolved stop the prior session is no longer recording
before the start path produces any broadcast, and a rejected stop aborts
the start entirely; moreover along every request sequence from an idle
orchestrator the broadcast trace alternates, so a second session never
starts before the prior one has stopped. -/
theorem orchestrator_single_session :
    (∀ (env : BgEnv) (st : BgState), st.isRecording = true →
       (∀ b : Bool, (recordingStop env st).2.1 = Except.ok b →
          ((recordingStop env st).2.2).isRecording = false ∧
          recordingStart env st =
            ((recordingStop env st).1 ++ (startCore env (recordingStop env st).2.2).1,
             (startCore env (recordingStop env st).2.2).2.1,
             (startCore env (recordingStop env st).2.2).2.2)) ∧
       (∀ e : String, (recordingStop env st).2.1 = Except.error e →
          recordingStart env st =
            ((recordingStop env st).1, Except.error e, (recordingStop env st).2.2))) ∧
    (∀ (reqs : List BgReq) (st : BgState), st.isRecording = false →
       StatusAlt false (runBg st reqs).1 ((runBg st reqs).2).isRecording) := by
  refine ⟨?_, ?_⟩
  · intro env st h
    constructor
    · intro b hb
      refine ⟨recordingStop_ok_cleared env st b hb, ?_⟩
      unfold recordingStart
      rw [h]
      rcases hrs : recordingStop env st with ⟨tr, r, st1⟩
      rw [hrs] at hb
      cases r with
      | error e => exact absurd hb (by simp)
      | ok bb => simp
    · intro e he
      unfold recordingStart
      rw [h]
      rcases hrs : recordingStop env st with ⟨tr, r, st1⟩
      rw [hrs] at he
      cases r with
      | error e2 =>
        simp only [Except.error.injEq] at he
        subst he
        simp
      | ok bb => exact absurd he (by simp)
  · intro reqs st h
    have := runBg_alt reqs st
    rwa [h] at this

/-- Witness for claim C6 at a concrete recording state, environment and
request sequence. -/
theorem orchestrator_single_session_witness :
    ((recordingStop okEnv recMicState).2.2).isRecording = false ∧
    recordingStart okEnv recMicState =
      ((recordingStop okEnv recMicState).1 ++
         (startCore okEnv (recordingStop okEnv recMicState).2.2).1,
       (startCore okEnv (recordingStop okEnv recMicState).2.2).2.1,
       (startCore okEnv (recordingStop okEnv recMicState).2.2).2.2) ∧
    StatusAlt false
      (runBg idleMicState [BgReq.start "mic" okEnv, BgReq.start "tab" okEnv]).1
      ((runBg idleMicState [BgReq.start "mic" okEnv, BgReq.start "tab" okEnv]).2).isRecording :=
  ⟨((orchestrator_single_session.1 okEnv recMicState rfl).1 true rfl).1,
   ((orchestrator_single_session.1 okEnv recMicState rfl).1 true rfl).2,
   orchestrator_single_session.2 _ _ rfl⟩

/-- Claim C7: the sidepanel probe reports granted only when the permission
query answered granted and the actual capture attempt succeeded, having
attempted and released a transient capture; whenever the query answers
granted both probes do attempt a real capture; and the offscreen probe
resolves success only after a successful capture attempt. -/
theorem permission_check_validates :
    (∀ env : MicEnv, (checkMicrophonePermission env).result = true →
       env.query = PermQuery.granted ∧ env.gum = true ∧
       (checkMicrophonePermission env).attemptedCapture = true ∧
       (checkMicrophonePermission env).releasedTracks = true) ∧
    (∀ env : MicEnv, env.query = PermQuery.granted →
       (checkMicrophonePermission env).attemptedCapture = true ∧
       (checkAudioPermissions env).2 = true) ∧
    (∀ env : MicEnv, (checkAudioPermissions env).1 = PermCheckReply.success →
       env.gum = true ∧ (checkAudioPermissions env).2 = true) := by
  refine ⟨?_, ?_, ?_⟩
  · intro env h
    rcases env with ⟨q, g, k⟩
    cases q <;> cases g <;> simp_all [checkMicrophonePermission]
  · intro env h
    rcases env with ⟨q, g, k⟩
    cases q <;> cases g <;> simp_all [checkMicrophonePermission, checkAudioPermissions]
  · intro env h
    rcases env with ⟨q, g, k⟩
    cases q <;> cases g <;> simp_all [checkAudioPermissions]

/-- Witness for claim C7 at a concrete environment with a granted query and
a successful capture attempt. -/
theorem permission_check_validates_witness :
    ((checkMicrophonePermission grantedOkEnv).attemptedCapture = true ∧
     (checkMicrophonePermission grantedOkEnv).releasedTracks = true) ∧
    ((checkAudioPermissions grantedOkEnv).2 = true) ∧
    (grantedOkEnv.gum = true ∧ (checkAudioPermissions grantedOkEnv).2 = true) :=
  ⟨⟨(permission_check_validates.1 grantedOkEnv rfl).2.2.1,
    (permission_check_validates.1 grantedOkEnv rfl).2.2.2⟩,
   (permission_check_validates.2.1 grantedOkEnv rfl).2,
   permission_check_validates.2.2 grantedOkEnv rfl⟩

/-- Claim C8 counterexample: starting with source mix both while tab
capture succeeds and the microphone part fails reaches the recording state
and resolves, but the only broadcast message carries source both, which is
not tab, and no broadcast carries the microphone error text. -/
theorem bothStart_micFail_counterexample :
    recordingStart micFailEnv idleBothState =
      ([BgMsg.statusStarted "both"], Except.ok true,
        { isRecording := true, recordingSource := "both", lastRecordingUrl := none }) ∧
    ("both" : String) ≠ "tab" ∧
    ¬ (BgMsg.statusStarted "tab") ∈ (recordingStart micFailEnv idleBothState).1 := by
  refine ⟨rfl, by decide, ?_⟩
  intro hmem
  have : (BgMsg.statusStarted "tab") ∈ [BgMsg.statusStarted "both"] := hmem
  simp at this

/-- Claim C8 amended: starting with source mix both while tab capture
succeeds and the microphone part fails still reaches the recording state
with no exception propagated; the single status broadcast keeps source
both, and the microphone error text is only logged, never broadcast. -/
theorem bothStart_micFail_amended :
    ∀ micErr : String,
      recordingStart
        { tabStart := Except.ok (), offStart := Except.error micErr,
          tabStop := Except.ok (), offStop := Except.ok () } idleBothState =
      ([BgMsg.statusStarted "both"], Except.ok true,
        { isRecording := true, recordingSource := "both", lastRecordingUrl := none }) := by
  intro micErr
  rfl

/-- Claim C9: setActiveTab clears exactly the notification flags belonging
to the newly viewed tab, keeps the other notification flags, records the
tab, and leaves every remaining store field unchanged. -/
theorem setActiveTab_clears_viewed_flags :
    ∀ s : AppStoreState,
      ((setActiveTab s Tab.transcription).hasNewTranscription = false ∧
       (setActiveTab s Tab.transcription).hasNewAction = s.hasNewAction ∧
       (setActiveTab s Tab.transcription).hasSchedulingProposal = s.hasSchedulingProposal) ∧
      ((setActiveTab s Tab.chat).hasNewAction = false ∧
       (setActiveTab s Tab.chat).hasSchedulingProposal = false ∧
       (setActiveTab s Tab.chat).hasNewTranscription = s.hasNewTranscription) ∧
      (∀ tab : Tab,
        (setActiveTab s tab).activeTab = tab ∧
        (setActiveTab s tab).latestTranscription = s.latestTranscription ∧
        (setActiveTab s tab).fullTranscript = s.fullTranscript ∧
        (setActiveTab s tab).pendingTool = s.pendingTool ∧
        (setActiveTab s tab).actionResults = s.actionResults) := by
  intro s
  refine ⟨⟨?_, ?_, ?_⟩, ⟨?_, ?_, ?_⟩, ?_⟩ <;> simp [setActiveTab]

/-- Claim C10 counterexample: with a provided-but-empty date and
description the handler substitutes the fallbacks, so the details do not
equal the given values. -/
theorem scheduleAppointment_empty_optional_counterexample :
    emptyOptionalParams.date = some "" ∧
    (scheduleAppointment emptyOptionalParams).appointmentDetails.date = "today" ∧
    ¬ (scheduleAppointment emptyOptionalParams).appointmentDetails.date = "" ∧
    (scheduleAppointment emptyOptionalParams).appointmentDetails.description =
      "No description provided" := by
  refine ⟨?_, ?_, ?_, ?_⟩ <;> decide

/-- Claim C10 amended: the handler is total and always succeeds, with a
message containing the given time; the details keep the given date and
description when they are provided and non-empty, and fall back to today
and the generic label when they are absent or empty (JS truthiness). -/
theorem scheduleAppointment_total_spec :
    ∀ p : AppointmentParams,
      (scheduleAppointment p).success = true ∧
      strIncludes (scheduleAppointment p).message p.time = true ∧
      (scheduleAppointment p).appointmentDetails.time = p.time ∧
      ((p.date = none ∨ p.date = some "") →
        (scheduleAppointment p).appointmentDetails.date = "today") ∧
      (∀ d : String, p.date = some d → ¬ d = "" →
        (scheduleAppointment p).appointmentDetails.date = d) ∧
      ((p.description = none ∨ p.description = some "") →
        (scheduleAppointment p).appointmentDetails.description = "No description provided") ∧
      (∀ d : String, p.description = some d → ¬ d = "" →
        (scheduleAppointment p).appointmentDetails.description = d) := by
  intro p
  refine ⟨rfl, ?_, rfl, ?_, ?_, ?_, ?_⟩
  · show strIncludes ("Appointment scheduled for " ++ p.time ++ _) p.time = true
    unfold strIncludes
    rw [strToList_append, strToList_append]
    exact containsSubList_mid _ _ _
  · rintro (h | h) <;> simp [scheduleAppointment, jsOrElse, h]
  · intro d hd hne
    simp [scheduleAppointment, jsOrElse, hd, hne]
  · rintro (h | h) <;> simp [scheduleAppointment, jsOrElse, h]
  · intro d hd hne
    simp [scheduleAppointment, jsOrElse, hd, hne]

/-- Witness for the amended claim C10 at concrete parameters. -/
theorem scheduleAppointment_total_spec_witness :
    (scheduleAppointment tomorrowParams).success = true ∧
    strIncludes (scheduleAppointment tomorrowParams).message "4pm" = true ∧
    (scheduleAppointment tomorrowParams).appointmentDetails.date = "tomorrow" ∧
    (scheduleAppointment tomorrowParams).appointmentDetails.description =
      "No description provided" :=
  ⟨(scheduleAppointment_total_spec tomorrowParams).1,
   (scheduleAppointment_total_spec tomorrowParams).2.1,
   (scheduleAppointment_total_spec tomorrowParams).2.2.2.2.1 "tomorrow" rfl (by decide),
   (scheduleAppointment_total_spec tomorrowParams).2.2.2.2.2.1 (Or.inl rfl)⟩

end CTA
